import Mathlib

set_option maxRecDepth 4000

namespace MdviewInstaller

/-!
Shallow embedding of the installation-target resolution and conflict
reconciliation engine of the mdview repository (`mdview_installer.py`,
`build_installer.py`).  Filesystem state, subprocess outcomes and the
interactive input stream are modelled explicitly; each Python function of
interest is translated to a Lean function over those models.  String
operations used by the Python code (`in`, `strip`, `lower`, `split`, ...)
are modelled by structurally recursive functions on the character list of a
`String`, so that every definition evaluates by kernel reduction.
-/

/-- Prefix test on character lists. -/
def isPrefixB : List Char → List Char → Bool
  | [], _ => true
  | _ :: _, [] => false
  | a :: as, b :: bs => a == b && isPrefixB as bs

/-- Substring occurrence on character lists (models Python `needle in hay`). -/
def containsSub : List Char → List Char → Bool
  | hay, [] => hay.isEmpty || true
  | [], _ :: _ => false
  | h :: hs, n :: ns => isPrefixB (n :: ns) (h :: hs) || containsSub hs (n :: ns)

/-- Substring test on strings, modelling the Python `pat in s` operator. -/
def strContains (s pat : String) : Bool :=
  containsSub s.data pat.data

/-- ASCII whitespace, as stripped by Python `str.strip()`. -/
def isWsB (c : Char) : Bool :=
  c == ' ' || c == '\t' || c == '\n' || c == '\x0d' || c == '\x0b' || c == '\x0c'

/-- Model of Python `str.strip()`: drop whitespace from both ends. -/
def pyStrip (s : String) : String :=
  String.mk (((s.data.dropWhile isWsB).reverse.dropWhile isWsB).reverse)

/-- Model of Python `str.lower()` (ASCII case folding). -/
def pyLower (s : String) : String :=
  String.mk (s.data.map Char.toLower)

/-- Split of a character list at a separator character. -/
def splitAtChar (sep : Char) : List Char → List (List Char)
  | [] => [[]]
  | c :: cs =>
      let r := splitAtChar sep cs
      if c == sep then [] :: r
      else
        match r with
        | [] => [[c]]
        | g :: gs => (c :: g) :: gs

/-- Join character-list components with a separator character. -/
def joinWithChar (sep : Char) : List (List Char) → List Char
  | [] => []
  | [g] => g
  | g :: gs => g ++ sep :: joinWithChar sep gs

/-- A filesystem snapshot: the set of existing paths and the set of paths for
which `os.access(p, os.W_OK)` reports write permission. -/
structure FS where
  existing : List String
  writableSet : List String
deriving DecidableEq

/-- Model of `Path.exists()`. -/
def pathExistsB (fs : FS) (p : String) : Bool := fs.existing.contains p

/-- Model of `os.access(p, os.W_OK)`. -/
def accessW (fs : FS) (p : String) : Bool := fs.writableSet.contains p

/-- Model of pathlib `Path.parent` on POSIX-style path strings: drop the last
component; the parent of a single-component path is `/` (absolute) or `.`
(relative). -/
def parentPath (p : String) : String :=
  let comps := (splitAtChar '/' p.data).filter (fun c => !c.isEmpty)
  let isAbs : Bool := isPrefixB ['/'] p.data
  if comps.length ≤ 1 then (if isAbs then "/" else ".")
  else String.mk ((if isAbs then ['/'] else []) ++ joinWithChar '/' comps.dropLast)

/-- Embedding of `check_directory_writable` (mdview_installer.py lines 54-78):
for a path that does not exist, the immediate parent is required to exist and
is probed with `os.access`; an existing path is probed directly. -/
def check_directory_writable (fs : FS) (p : String) : Bool :=
  if !(pathExistsB fs p) then
    if !(pathExistsB fs (parentPath p)) then false
    else accessW fs (parentPath p)
  else accessW fs p

/-- Stated from the spec (section 4.1) for comparison with the code: the
nearest existing ancestor directory of a path, walking up as many missing
levels as needed.  Fuel bounds the walk; each step moves to the parent. -/
def nearestExistingAncestor (fs : FS) : Nat → String → Option String
  | 0, _ => none
  | fuel + 1, p =>
      let par := parentPath p
      if pathExistsB fs par then some par
      else if par == p then none
      else nearestExistingAncestor fs fuel par

/-- Concrete filesystem for claim C2: `/tmp` exists and is writable, while
`/tmp/a` and `/tmp/a/b` do not exist. -/
def fsDeepMissing : FS := ⟨["/", "/tmp"], ["/", "/tmp"]⟩

/-!  Version extraction (`get_mdview_version`, lines 668-713) and the
existing-installation scan (`find_existing_mdview` / `find_pipx_mdview`,
lines 619-665 and 716-756).  Subprocess invocations and file reads are
modelled as oracles recording the outcome the operating system delivered. -/

/-- Outcome of the `subprocess.run([mdview, "-h"], ...)` version probe: either
the call raised (timeout, missing permission, not executable, any `except`)
or it completed with an exit code and captured output. -/
inductive ProbeOutcome
  | raised
  | completed (returncode : Int) (stdout stderr : String)

/-- Outcome of `open(path).read(2000)`: raised, or the file's text. -/
inductive ReadOutcome
  | raised
  | content (s : String)

/-- Case-insensitive prefix match on character lists. -/
def isPrefixCIB : List Char → List Char → Option (List Char)
  | [], rest => some rest
  | _ :: _, [] => none
  | p :: ps, c :: cs => if p.toLower == c.toLower then isPrefixCIB ps cs else none

/-- Case-sensitive prefix match returning the remainder. -/
def isPrefixRest : List Char → List Char → Option (List Char)
  | [], rest => some rest
  | _ :: _, [] => none
  | p :: ps, c :: cs => if p == c then isPrefixRest ps cs else none

/-- Characters matched by the regex class `[0-9.]`. -/
def isVerChar (c : Char) : Bool := c.isDigit || c == '.'

/-- Generic leftmost-match scanner: try the matcher at every position. -/
def searchWith (tryAt : List Char → Option String) : List Char → Option String
  | [] => none
  | c :: cs =>
      match tryAt (c :: cs) with
      | some v => some v
      | none => searchWith tryAt cs

/-- One position of the regex `version\s+([0-9.]+)` with `re.IGNORECASE`:
the literal `version` case-insensitively, one or more whitespace characters,
then one or more characters of `[0-9.]` (greedy). -/
def tryVersionAt (cs : List Char) : Option String :=
  match isPrefixCIB "version".data cs with
  | none => none
  | some r1 =>
      let sp := r1.takeWhile isWsB
      if sp.isEmpty then none
      else
        let r2 := r1.drop sp.length
        let ds := r2.takeWhile isVerChar
        if ds.isEmpty then none else some (String.mk ds)

/-- Quote characters of the regex class `["\x27]`. -/
def isQuoteB (c : Char) : Bool := c == Char.ofNat 34 || c == Char.ofNat 39

/-- One position of the regex `__version__\s*=\s*["\x27]([^"\x27]+)["\x27]`. -/
def tryDunderAt (cs : List Char) : Option String :=
  match isPrefixRest "__version__".data cs with
  | none => none
  | some r1 =>
      match (r1.dropWhile isWsB) with
      | '=' :: r3 =>
          match (r3.dropWhile isWsB) with
          | q :: r5 =>
              if isQuoteB q then
                let body := r5.takeWhile (fun c => !(isQuoteB c))
                match r5.drop body.length with
                | q2 :: _ =>
                    if !body.isEmpty && isQuoteB q2 then some (String.mk body)
                    else none
                | [] => none
              else none
          | [] => none
      | _ => none

/-- One position of the regex `#\s*Version:?\s*([0-9.]+)` (case-sensitive). -/
def tryCommentAt : List Char → Option String
  | '#' :: r1 =>
      match isPrefixRest "Version".data (r1.dropWhile isWsB) with
      | none => none
      | some r3 =>
          let r4 := match r3 with
            | ':' :: t => t
            | t => t
          let ds := (r4.dropWhile isWsB).takeWhile isVerChar
          if ds.isEmpty then none else some (String.mk ds)
  | _ => none

/-- Model of `re.search(r'version\s+([0-9.]+)', s, re.IGNORECASE)`. -/
def matchVersionHelp (s : String) : Option String := searchWith tryVersionAt s.data

/-- Model of `re.search(r'__version__\s*=\s*["\x27]([^"\x27]+)["\x27]', s)`. -/
def matchDunderVersion (s : String) : Option String := searchWith tryDunderAt s.data

/-- Model of `re.search(r'#\s*Version:?\s*([0-9.]+)', s)`. -/
def matchCommentVersion (s : String) : Option String := searchWith tryCommentAt s.data

/-- The file-reading fallback of `get_mdview_version`: read the first 2000
characters and try the `__version__ = "..."` form, then the
`# Version: n.n` comment form; on a read failure or when neither matches,
the version is the literal string `"unknown"`. -/
def fileFallbackVersion : ReadOutcome → String
  | .raised => "unknown"
  | .content s =>
      let c := String.mk (s.data.take 2000)
      match matchDunderVersion c with
      | some v => v
      | none =>
          match matchCommentVersion c with
          | some v => v
          | none => "unknown"

/-- Embedding of `get_mdview_version` (lines 668-713).  The help-probe branch
is consulted only when the subprocess completed with exit code 0 and nonempty
stdout and the version regex matches its combined output; every other outcome
falls through to the file-reading fallback.  The function is total: every
Python exception path is a caught `except` that falls through. -/
def get_mdview_version (probe : ProbeOutcome) (fr : ReadOutcome) : String :=
  match probe with
  | .completed rc out err =>
      if rc == 0 && out != "" then
        match matchVersionHelp (out ++ err) with
        | some v => v
        | none => fileFallbackVersion fr
      else fileFallbackVersion fr
  | .raised => fileFallbackVersion fr

/-- Did the version-probe subprocess fail (raise, time out, or exit
non-zero / produce no stdout)?  These are the failure modes after which the
code never consults the help output. -/
def probeFailed : ProbeOutcome → Bool
  | .raised => true
  | .completed rc out _ => !(rc == 0 && out != "")

/-- Host state seen by the scanner: the result of `shutil.which("mdview")`,
the set of existing regular files, pipx availability, the parsed lines of
`pipx list --short` (none when the call failed or produced no output), and
per-path oracles for the version probe subprocess and the file read. -/
structure Host where
  home : String
  whichMdview : Option String
  files : List String
  pipxAvailable : Bool
  pipxList : Option (List String)
  probe : String → ProbeOutcome
  readF : String → ReadOutcome

/-- Model of `path.exists() and path.is_file()` for the scanner. -/
def fileExistsB (h : Host) (p : String) : Bool := h.files.contains p

/-- Version of the installation at `p`, via the two oracles. -/
def mdviewVersion (h : Host) (p : String) : String :=
  get_mdview_version (h.probe p) (h.readF p)

/-- The fixed list of conventional Unix directories probed by
`find_existing_mdview` (lines 644-651), each joined with the artifact name. -/
def unixCommonDirs (home : String) : List String :=
  ["/usr/local/bin/mdview", "/usr/bin/mdview", "/opt/local/bin/mdview",
   home ++ "/.local/bin/mdview", home ++ "/bin/mdview", home ++ "/.bin/mdview"]

/-- One iteration of the common-directory loop of `find_existing_mdview`
(lines 654-659): record the path when the file exists and the path string is
not already among the recorded installations. -/
def scanStep (h : Host) (acc : List (String × String)) (p : String) :
    List (String × String) :=
  if fileExistsB h p && !(acc.any (fun q => q.1 == p)) then
    acc ++ [(p, mdviewVersion h p)]
  else acc

/-- The PATH-lookup step plus the common-directory loop of
`find_existing_mdview` (lines 627-659), i.e. everything before the pipx
results are appended. -/
def find_existing_nonpipx (h : Host) : List (String × String) :=
  let fromPath : List (String × String) :=
    match h.whichMdview with
    | some p => [(p, mdviewVersion h p)]
    | none => []
  (unixCommonDirs h.home).foldl (scanStep h) fromPath

/-- Model of Python `str.split()` with no arguments: split on whitespace runs
and discard empty pieces. -/
def splitWs (s : String) : List String :=
  ((splitAtChar ' ' (s.data.map (fun c => if isWsB c then ' ' else c))).filter
    (fun g => !g.isEmpty)).map String.mk

/-- Embedding of `find_pipx_mdview` (lines 716-756): when pipx is available
and its listing succeeded, every line mentioning `mdview` (case-insensitive)
contributes the fixed path `~/.local/bin/mdview` (when that file exists) with
the second whitespace-separated field as version, falling back to the
sentinel string `"pipx-managed"`.  No deduplication is performed. -/
def find_pipx_mdview (h : Host) : List (String × String) :=
  if !h.pipxAvailable then []
  else
    match h.pipxList with
    | none => []
    | some lines =>
        lines.foldl
          (fun acc line =>
            if strContains (pyLower line) "mdview" then
              let parts := splitWs (pyStrip line)
              let ver := if 2 ≤ parts.length then parts.getD 1 "" else "pipx-managed"
              let pipxBin := h.home ++ "/.local/bin/mdview"
              if fileExistsB h pipxBin then acc ++ [(pipxBin, ver)] else acc
            else acc)
          []

/-- Embedding of `find_existing_mdview` (lines 619-665): the PATH lookup and
common-directory scan, then `found_installations.extend(find_pipx_mdview())`
with no further duplicate check. -/
def find_existing_mdview (h : Host) : List (String × String) :=
  find_existing_nonpipx h ++ find_pipx_mdview h

/-- Concrete host for claim C3: no `mdview` on PATH, a copy installed at
`~/.local/bin/mdview`, and pipx reporting an `mdview` package.  Both the
common-directory scan and the pipx listing discover the same path. -/
def hostDup : Host :=
  { home := "/home/u"
    whichMdview := none
    files := ["/home/u/.local/bin/mdview"]
    pipxAvailable := true
    pipxList := some ["mdview 1.0.0"]
    probe := fun _ => ProbeOutcome.raised
    readF := fun _ => ReadOutcome.raised }

/-- Concrete host for claim C9: `/usr/local/bin/mdview` exists, the version
probe raises (e.g. `subprocess.TimeoutExpired`) and the file read raises. -/
def hostTimeout : Host :=
  { home := "/home/u"
    whichMdview := none
    files := ["/usr/local/bin/mdview"]
    pipxAvailable := false
    pipxList := none
    probe := fun _ => ProbeOutcome.raised
    readF := fun _ => ReadOutcome.raised }

/-!  Interactive prompts.  Each `input()` call consumes one event from the
input stream: a line of text, or an interrupt (`EOFError` /
`KeyboardInterrupt`); an exhausted stream behaves as end-of-file, which
Python delivers as `EOFError`. -/

/-- One event delivered to a blocking `input()` call. -/
inductive InputEvent
  | line (s : String)
  | interrupt
deriving DecidableEq

/-- The `[y/N]` overwrite confirmation loop of `should_install_to_location`
(lines 865-878): `y`/`yes` proceeds, empty/`n`/`no` cancels, an interrupt or
end-of-file cancels, anything else re-prompts. -/
def confirmOverwriteLoop : List InputEvent → Bool
  | [] => false
  | .interrupt :: _ => false
  | .line s :: rest =>
      let r := pyLower (pyStrip s)
      if r == "y" || r == "yes" then true
      else if r == "" || r == "n" || r == "no" then false
      else confirmOverwriteLoop rest

/-- Result of the target-location conflict check: whether the overwrite
confirmation prompt was presented, and whether installation proceeds. -/
structure OverwriteOutcome where
  prompted : Bool
  proceed : Bool
deriving DecidableEq

/-- Embedding of `should_install_to_location` (lines 833-896): when
`target_path/"mdview"` is among the scanned installations the overwrite
prompt runs; otherwise other installations are only reported and the
function returns true. -/
def should_install_to_location (installations : List (String × String))
    (targetPath : String) (inputs : List InputEvent) : OverwriteOutcome :=
  if installations.any (fun pv => pv.1 == targetPath ++ "/mdview") then
    ⟨true, confirmOverwriteLoop inputs⟩
  else ⟨false, true⟩

/-- Embedding of the conflict-check step of `main` (lines 985-988) with an
instrumented count of calls to the scanner: in force mode the scan is never
run and installation proceeds; otherwise the scan runs once and
`should_install_to_location` decides. -/
def resolve_conflict (force : Bool) (h : Host) (installDir : String)
    (inputs : List InputEvent) : Nat × OverwriteOutcome :=
  if force then (0, ⟨false, true⟩)
  else (1, should_install_to_location (find_existing_mdview h) installDir inputs)

/-- Whether `main` (lines 985-999) reaches the `install_mdview` write step:
a declined conflict check exits with status 0 before it, and a failed
dependency installation exits with status 1 before it (`depsOk` records
`args.no_deps or install_dependencies()`). -/
def main_installer_invoked (force depsOk : Bool) (h : Host) (installDir : String)
    (inputs : List InputEvent) : Bool :=
  (force || (should_install_to_location (find_existing_mdview h) installDir
      inputs).proceed) && depsOk

/-!  Target-location selection (`get_install_location`, lines 256-379,
Unix branch) and the candidate lists of `find_writable_user_directory`
(lines 81-131). -/

/-- Model of `os.path.expanduser` as used via `Path(p).expanduser()`. -/
def expanduser (home p : String) : String :=
  if p == "~" then home
  else if isPrefixB ['~', '/'] p.data then home ++ String.mk (p.data.drop 1)
  else p

/-- Model of Python `int(s)` on a stripped string: an optional sign followed
by at least one decimal digit. -/
def digitsVal : List Char → Option Nat
  | [] => none
  | [c] => if c.isDigit then some (c.toNat - 48) else none
  | c :: cs =>
      if c.isDigit then
        match digitsVal cs with
        | some v => some ((c.toNat - 48) * 10 ^ cs.length + v)
        | none => none
      else none

/-- Parse a Python `int()` literal (optional sign, then digits). -/
def parsePyInt (s : String) : Option Int :=
  match s.data with
  | '-' :: cs => (digitsVal cs).map (fun v => -(v : Int))
  | '+' :: cs => (digitsVal cs).map (fun v => (v : Int))
  | cs => (digitsVal cs).map (fun v => (v : Int))

/-- Environment of `get_install_location`: home and current directories, a
filesystem snapshot, and the set of paths for which
`mkdir(parents=True, exist_ok=True)` succeeds. -/
structure LocEnv where
  home : String
  cwd : String
  fs : FS
  mkdirOk : List String

/-- Result of target selection: a chosen directory with its
needs-elevated-privileges flag, or a user cancellation (`sys.exit(0)`). -/
inductive LocOutcome
  | chosen (path : String) (needsSudo : Bool)
  | cancelled
deriving DecidableEq

/-- The shared select-a-directory step (lines 261-268, 345-354, 364-375):
probe writability of the path (or its parent when the path is missing),
then attempt `mkdir`; a `mkdir` failure forces the elevated flag. -/
def attemptDir (env : LocEnv) (p : String) : LocOutcome :=
  let needsSudo :=
    !(check_directory_writable env.fs
        (if pathExistsB env.fs p then p else parentPath p))
  if env.mkdirOk.contains p then .chosen p needsSudo else .chosen p true

/-- The fixed system-directory candidates of the interactive menu
(line 300). -/
def systemDirCandidates : List String := ["/usr/local/bin", "/opt/local/bin", "/usr/bin"]

/-- The first existing system candidate, defaulting to `/usr/local/bin`
(lines 302-309). -/
def firstExistingSystemDir (fs : FS) : String :=
  match systemDirCandidates.find? (fun d => pathExistsB fs d) with
  | some d => d
  | none => "/usr/local/bin"

/-- The interactive menu of `get_install_location` (lines 286-315): the user
directory `~/.local/bin`, a system directory, and the current directory, with
their static requires-elevation flags. -/
def interactiveOptions (env : LocEnv) : List (String × Bool) :=
  [(env.home ++ "/.local/bin", false),
   (firstExistingSystemDir env.fs, true),
   (env.cwd, false)]

/-- The ordered Unix user-directory preference list of
`find_writable_user_directory` (lines 98-103). -/
def unixUserCandidates (home cwd : String) : List String :=
  [home ++ "/bin", home ++ "/.local/bin", home ++ "/.bin", cwd ++ "/mdview_install"]

/-- Embedding of `find_writable_user_directory` (lines 81-131, Unix branch):
the first writable user candidate wins without elevation; otherwise the first
system directory that exists or has a writable parent is suggested with
elevation, defaulting to `/usr/local/bin`. -/
def find_writable_user_directory (fs : FS) (home cwd : String) : String × Bool :=
  match (unixUserCandidates home cwd).find? (fun c => check_directory_writable fs c) with
  | some c => (c, false)
  | none =>
      match systemDirCandidates.find?
          (fun d => pathExistsB fs d || check_directory_writable fs (parentPath d)) with
      | some d => (d, true)
      | none => ("/usr/local/bin", true)

/-- The interactive choice loop of `get_install_location` (lines 330-379),
returning the outcome and the number of `input()` prompts consumed: an
interrupt or end-of-file cancels; a number in range selects an option; the
extra number asks for a custom path (empty custom input re-loops, an
interrupt there cancels); anything else re-prompts. -/
def interactiveLoop (env : LocEnv) (opts : List (String × Bool)) :
    List InputEvent → LocOutcome × Nat
  | [] => (.cancelled, 1)
  | .interrupt :: _ => (.cancelled, 1)
  | .line s :: rest =>
      match parsePyInt (pyStrip s) with
      | some n =>
          if 1 ≤ n && n ≤ (opts.length : Int) then
            (attemptDir env ((opts.getD (n - 1).toNat ("", true)).1), 1)
          else if n == (opts.length : Int) + 1 then
            match rest with
            | [] => (.cancelled, 2)
            | .interrupt :: _ => (.cancelled, 2)
            | .line c :: rest2 =>
                let cp := pyStrip c
                if cp == "" then
                  let r := interactiveLoop env opts rest2
                  (r.1, r.2 + 2)
                else (attemptDir env (expanduser env.home cp), 2)
          else
            let r := interactiveLoop env opts rest
            (r.1, r.2 + 1)
      | none =>
          let r := interactiveLoop env opts rest
          (r.1, r.2 + 1)

/-- Embedding of `get_install_location` (lines 256-379, Unix branch): an
explicit `--path` override is expanded and attempted directly; `--auto`
silently targets `~/.local/bin`, creating it if possible; otherwise the
interactive menu runs.  The second component counts `input()` prompts. -/
def get_install_location (env : LocEnv) (autoInstall : Bool)
    (installPath : Option String) (inputs : List InputEvent) : LocOutcome × Nat :=
  match installPath with
  | some ip => (attemptDir env (expanduser env.home ip), 0)
  | none =>
      if autoInstall then
        (if env.mkdirOk.contains (env.home ++ "/.local/bin") then
          .chosen (env.home ++ "/.local/bin") false
         else .chosen (env.home ++ "/.local/bin") true, 0)
      else
        interactiveLoop env (interactiveOptions env) inputs

/-!  PATH registration (`update_user_path`, `is_path_in_config`,
`add_to_path`, lines 471-616). -/

/-- The system directories for which `update_user_path` short-circuits
(lines 564-574). -/
def systemDirs : List String := ["/usr/local/bin", "/opt/local/bin", "/usr/bin", "/bin"]

/-- Environment of the PATH registrar: the shell config file selected by
`detect_shell` with its content (none when the file does not exist), and
whether writing to it succeeds. -/
structure PathEnv where
  configFile : String
  configContent : Option String
  writeOk : Bool

/-- The textual patterns `is_path_in_config` looks for (lines 492-501). -/
def pathPatterns (dir : String) : List String :=
  ["export PATH=\"$PATH:" ++ dir ++ "\"",
   "export PATH=\"$\x7bPATH\x7d:" ++ dir ++ "\"",
   "export PATH=$PATH:" ++ dir,
   "export PATH=$\x7b" ++ dir ++ "\x7d:$PATH",
   "PATH=\"$PATH:" ++ dir ++ "\"",
   "PATH=\"$\x7bPATH\x7d:" ++ dir ++ "\"",
   "PATH=$PATH:" ++ dir]

/-- Embedding of `is_path_in_config` (lines 471-515): false for a missing
file; otherwise any exact pattern occurrence, or any line mentioning both
`PATH` and the directory, counts as already configured. -/
def is_path_in_config (content? : Option String) (dir : String) : Bool :=
  match content? with
  | none => false
  | some content =>
      (pathPatterns dir).any (fun pat => strContains content pat) ||
      ((splitAtChar '\n' content.data).any
        (fun lineChars =>
          strContains (String.mk lineChars) "PATH" &&
          strContains (String.mk lineChars) dir))

/-- The export line appended by `add_to_path` (line 540). -/
def pathLine (dir : String) : String :=
  "\n# Added by MDView installer\nexport PATH=\"$PATH:" ++ dir ++ "\"\n"

/-- Embedding of `add_to_path` (lines 518-550): append the export line to the
config file (created empty when missing); a write failure returns false and
leaves the content unchanged. -/
def add_to_path (env : PathEnv) (dir : String) : Bool × Option String :=
  if env.writeOk then (true, some ((env.configContent.getD "") ++ pathLine dir))
  else (false, env.configContent)

/-- Embedding of `update_user_path` (lines 553-616): system directories
short-circuit to true; an already-configured directory short-circuits to
true; otherwise auto mode answers `y` itself, and interactively an interrupt
or end-of-file during the prompt is caught and *defaults the response to
`y`* (the code comment reads `Default to yes if non-interactive`); `n`/`no`
declines, empty/`y`/`yes` appends via `add_to_path`, anything else returns
false.  Returns the result together with the final config content. -/
def update_user_path (env : PathEnv) (installDir : String) (autoMode : Bool)
    (inputs : List InputEvent) : Bool × Option String :=
  if systemDirs.contains installDir then (true, env.configContent)
  else if is_path_in_config env.configContent installDir then (true, env.configContent)
  else
    let response : String :=
      if autoMode then "y"
      else
        match inputs with
        | [] => "y"
        | .interrupt :: _ => "y"
        | .line s :: _ => pyLower (pyStrip s)
    if response == "n" || response == "no" then (false, env.configContent)
    else if response == "" || response == "y" || response == "yes" then
      add_to_path env installDir
    else (false, env.configContent)

/-!  The installer write step (`install_mdview`, lines 385-421). -/

/-- How the write + chmod attempt of `install_mdview` turns out:
everything succeeds; `open(script_path, "w")` raises `PermissionError`;
the write raises a non-permission `OSError` after `k` characters reached the
file (the `open` already truncated the destination); or the final
`os.chmod` raises `PermissionError` after a complete write. -/
inductive WriteOutcome
  | ok
  | openPerm
  | writeFailsAfter (k : Nat)
  | chmodPerm
deriving DecidableEq

/-- Which of the two distinct failure messages `install_mdview` prints
(lines 416-421), or the success report. -/
inductive InstallMsg
  | installedOk
  | permissionDenied
  | installationFailed
deriving DecidableEq

/-- The destination file: its content (none when absent) and whether its
executable permission bit is set. -/
structure TargetFile where
  content : Option String
  execBit : Bool
deriving DecidableEq

/-- Result of `install_mdview`: the returned boolean, the message class
printed, and the resulting destination file. -/
structure InstallOutput where
  returned : Bool
  msg : InstallMsg
  file : TargetFile
deriving DecidableEq

/-- Model of Python text-file truncation plus partial write: the first `k`
characters of the new content. -/
def strTake (s : String) (k : Nat) : String := String.mk (s.data.take k)

/-- Embedding of `install_mdview` (lines 385-421): open the target for
writing (which truncates an existing file), write the embedded script, set
mode `0o755`, and only then report success; `PermissionError` is reported
distinctly from any other exception, but both return `False`. -/
def install_mdview (dest : TargetFile) (content : String) (w : WriteOutcome) :
    InstallOutput :=
  match w with
  | .ok => ⟨true, .installedOk, ⟨some content, true⟩⟩
  | .openPerm => ⟨false, .permissionDenied, dest⟩
  | .writeFailsAfter k => ⟨false, .installationFailed, ⟨some (strTake content k), dest.execBit⟩⟩
  | .chmodPerm => ⟨false, .permissionDenied, ⟨some content, dest.execBit⟩⟩

/-- Concrete host for claim C1: the scan finds `/usr/local/bin/mdview`. -/
def hostAtTarget : Host :=
  { home := "/home/u"
    whichMdview := none
    files := ["/usr/local/bin/mdview"]
    pipxAvailable := false
    pipxList := none
    probe := fun _ => ProbeOutcome.raised
    readF := fun _ => ReadOutcome.raised }

/-- Concrete PATH-registrar environment for claim C4: an existing `.bashrc`
with no PATH line, writable. -/
def envBashrc : PathEnv :=
  { configFile := "/home/u/.bashrc"
    configContent := some "# comment\n"
    writeOk := true }

/-- Concrete PATH-registrar environment for claim C8. -/
def envBashrcC8 : PathEnv :=
  { configFile := "/home/u/.bashrc"
    configContent := some "alias ll=ls\n"
    writeOk := true }

/-!  Build-time embedding of mdview.py (`build_installer.py` lines 87-101):
the generated `create_mdview_script` returns the Python string literal
`repr(mdview_content)`.  CPython's `repr` on `str`
(`unicode_repr` in Objects/unicodeobject.c) is modelled below with its
Unicode printability classification abstracted as a parameter `isPrint`,
consulted only for code points at and above 0x80 exactly as in CPython; the
decoder models Python's evaluation of the escape forms `repr` emits.  The
round-trip theorem is proved for every classification, so it covers
CPython's actual printability table as one instance. -/

/-- The single-quote character. -/
def quoteS : Char := Char.ofNat 39

/-- The double-quote character. -/
def quoteD : Char := Char.ofNat 34

/-- Lowercase hexadecimal digit for a value below 16, as `%x` formats it. -/
def hexDigitChar (n : Nat) : Char :=
  if n < 10 then Char.ofNat (48 + n) else Char.ofNat (87 + n)

/-- Value of a lowercase hexadecimal digit character. -/
def hexCharVal (c : Char) : Nat :=
  if c.isDigit then c.toNat - 48
  else if decide (97 ≤ c.toNat) && decide (c.toNat ≤ 102) then c.toNat - 87
  else 0

/-- Is `c` a lowercase hexadecimal digit? -/
def isHexDigitB (c : Char) : Bool :=
  c.isDigit || (decide (97 ≤ c.toNat) && decide (c.toNat ≤ 102))

/-- Two lowercase hex digits of `n` (the `\xhh` payload). -/
def hex2 (n : Nat) : List Char := [hexDigitChar (n / 16 % 16), hexDigitChar (n % 16)]

/-- Four lowercase hex digits of `n` (the `\uhhhh` payload). -/
def hex4 (n : Nat) : List Char :=
  [hexDigitChar (n / 4096 % 16), hexDigitChar (n / 256 % 16)] ++ hex2 n

/-- Eight lowercase hex digits of `n` (the `\Uhhhhhhhh` payload). -/
def hex8 (n : Nat) : List Char :=
  [hexDigitChar (n / 268435456 % 16), hexDigitChar (n / 16777216 % 16),
   hexDigitChar (n / 1048576 % 16), hexDigitChar (n / 65536 % 16)] ++ hex4 n

/-- How CPython's `repr` renders one character inside a literal quoted by
`q`: the quote and the backslash are backslash-escaped; tab, newline and
carriage return use their mnemonic escapes; other C0 controls and DEL use
`\xhh`; the remaining ASCII range is emitted literally; at and above 0x80
the printability classification decides between the literal character and a
`\xhh`/`\uhhhh`/`\Uhhhhhhhh` escape. -/
def reprEscChar (isPrint : Char → Bool) (q c : Char) : List Char :=
  if c == q || c == '\\' then ['\\', c]
  else if c == '\t' then ['\\', 't']
  else if c == '\n' then ['\\', 'n']
  else if c == '\x0d' then ['\\', 'r']
  else if decide (c.toNat < 32) || c.toNat == 127 then '\\' :: 'x' :: hex2 c.toNat
  else if decide (c.toNat < 127) then [c]
  else if isPrint c then [c]
  else if decide (c.toNat < 256) then '\\' :: 'x' :: hex2 c.toNat
  else if decide (c.toNat < 65536) then '\\' :: 'u' :: hex4 c.toNat
  else '\\' :: 'U' :: hex8 c.toNat

/-- CPython's quote selection for `repr`: a single quote, switching to a
double quote when the string contains a single quote but no double quote. -/
def pyQuoteChar (s : String) : Char :=
  if s.data.contains quoteS && !(s.data.contains quoteD) then quoteD else quoteS

/-- The escaped body of the literal. -/
def reprBody (isPrint : Char → Bool) (q : Char) (l : List Char) : List Char :=
  l.foldr (fun c acc => reprEscChar isPrint q c ++ acc) []

/-- `repr(s)` with the printability classification as a parameter. -/
def pyReprWith (isPrint : Char → Bool) (s : String) : String :=
  String.mk (pyQuoteChar s :: reprBody isPrint (pyQuoteChar s) s.data ++ [pyQuoteChar s])

/-- Printability default used for the concrete `pyRepr`: every code point at
and above 0x80 rendered literally (the branch CPython takes for printable
non-ASCII; the round-trip holds for any other choice as well). -/
def pyPrintableDefault (_c : Char) : Bool := true

/-- The modelled `repr(mdview_content)` of `build_installer.py` line 90. -/
def pyRepr (s : String) : String := pyReprWith pyPrintableDefault s

/-- Python's evaluation of one escape sequence after a backslash (restricted
to the forms `repr` emits): the decoded character and the remaining input,
for `\\`, `\'`, `\"`, `\n`, `\r`, `\t`, `\xhh`, `\uhhhh` and `\Uhhhhhhhh`. -/
def decodeEsc (_q : Char) (cs : List Char) : Option (Char × List Char) :=
  match cs with
  | [] => none
  | e :: cs2 =>
      if e == '\\' then some ('\\', cs2)
      else if e == quoteS then some (quoteS, cs2)
      else if e == quoteD then some (quoteD, cs2)
      else if e == 'n' then some ('\n', cs2)
      else if e == 'r' then some ('\x0d', cs2)
      else if e == 't' then some ('\t', cs2)
      else if e == 'x' then
        match cs2 with
        | d1 :: d2 :: cs3 =>
            if isHexDigitB d1 && isHexDigitB d2 then
              some (Char.ofNat (16 * hexCharVal d1 + hexCharVal d2), cs3)
            else none
        | _ => none
      else if e == 'u' then
        match cs2 with
        | d1 :: d2 :: d3 :: d4 :: cs3 =>
            if isHexDigitB d1 && isHexDigitB d2 && isHexDigitB d3 &&
                isHexDigitB d4 then
              some (Char.ofNat (4096 * hexCharVal d1 + 256 * hexCharVal d2 +
                16 * hexCharVal d3 + hexCharVal d4), cs3)
            else none
        | _ => none
      else if e == 'U' then
        match cs2 with
        | d1 :: d2 :: d3 :: d4 :: d5 :: d6 :: d7 :: d8 :: cs3 =>
            if isHexDigitB d1 && isHexDigitB d2 && isHexDigitB d3 &&
                isHexDigitB d4 && isHexDigitB d5 && isHexDigitB d6 &&
                isHexDigitB d7 && isHexDigitB d8 then
              some (Char.ofNat (268435456 * hexCharVal d1 +
                16777216 * hexCharVal d2 + 1048576 * hexCharVal d3 +
                65536 * hexCharVal d4 + 4096 * hexCharVal d5 +
                256 * hexCharVal d6 + 16 * hexCharVal d7 + hexCharVal d8), cs3)
            else none
        | _ => none
      else none

/-- Fuel-bounded evaluation of the body of a quoted literal: characters are
literal until the closing quote, which must end the input; a backslash
consumes one escape via `decodeEsc`.  One unit of fuel is spent per decoded
character, so the input length is always sufficient fuel. -/
def decodeBodyF (q : Char) : Nat → List Char → Option (List Char)
  | 0, _ => none
  | fuel + 1, cs =>
      match cs with
      | [] => none
      | c :: cs1 =>
          if c == q then (if cs1.isEmpty then some [] else none)
          else if c == '\\' then
            match decodeEsc q cs1 with
            | some (d, rest2) => (decodeBodyF q fuel rest2).map (fun l => d :: l)
            | none => none
          else (decodeBodyF q fuel cs1).map (fun l => c :: l)

/-- Python's evaluation of the body of a quoted string literal, with the
input length as (always sufficient) fuel. -/
def decodeBody (q : Char) (l : List Char) : Option (List Char) :=
  decodeBodyF q l.length l

/-- Python's evaluation of a complete quoted string literal: an opening
quote, a body, and the matching closing quote ending the input. -/
def pyEvalLiteral (lit : String) : Option String :=
  match lit.data with
  | [] => none
  | q :: rest =>
      if q == quoteS || q == quoteD then (decodeBody q rest).map String.mk
      else none

/-- The fixed header of the generated function (`build_installer.py`
lines 88-90, an f-string whose interpolation is `repr(mdview_content)`). -/
def scriptFnHeader : String :=
  "def create_mdview_script():\n    \x22\x22\x22Return the complete mdview.py source code.\x22\x22\x22\n    return "

/-- The generated `create_mdview_script` function text for a given
mdview.py source. -/
def build_mdview_function (mdviewContent : String) : String :=
  scriptFnHeader ++ pyRepr mdviewContent

/-- The value returned by the generated installer's
`create_mdview_script()`: Python evaluates the literal that follows
`return `. -/
def create_mdview_script_value (builtFn : String) : Option String :=
  pyEvalLiteral (String.mk (builtFn.data.drop scriptFnHeader.data.length))

/-- C2 (counterexample): on a host where `/tmp` is the nearest existing
ancestor of `/tmp/a/b` and is writable, the probe nevertheless returns false,
because the code only inspects the immediate parent `/tmp/a`, which does not
exist.  This refutes the claim that the probe walks up as many missing levels
as needed. -/
theorem c2_counterexample :
    pathExistsB fsDeepMissing "/tmp/a/b" = false ∧
    nearestExistingAncestor fsDeepMissing 8 "/tmp/a/b" = some "/tmp" ∧
    accessW fsDeepMissing "/tmp" = true ∧
    check_directory_writable fsDeepMissing "/tmp/a/b" = false := by
  refine ⟨by decide, by decide, by decide, by decide⟩

/-- C2 (amended): for every path that does not exist, the writability probe
returns true exactly when the immediate parent of the path exists and is
writable; missing levels beyond the immediate parent are not walked. -/
theorem c2_amended (fs : FS) (p : String) (h : pathExistsB fs p = false) :
    check_directory_writable fs p =
      (pathExistsB fs (parentPath p) && accessW fs (parentPath p)) := by
  unfold check_directory_writable
  rw [h]
  cases hpar : pathExistsB fs (parentPath p) <;> simp [hpar]

/-- C2 (witness): the amended statement evaluated on the concrete filesystem at
the non-existing path `/tmp/a/b`. -/
theorem c2_amended_witness :
    pathExistsB fsDeepMissing "/tmp/a/b" = false ∧
    check_directory_writable fsDeepMissing "/tmp/a/b" =
      (pathExistsB fsDeepMissing (parentPath "/tmp/a/b") &&
        accessW fsDeepMissing (parentPath "/tmp/a/b")) :=
  ⟨by decide, c2_amended fsDeepMissing "/tmp/a/b" (by decide)⟩

/-- One scan step either keeps the accumulator or appends one entry. -/
theorem scanStep_app (h : Host) (acc : List (String × String)) (p : String) :
    ∃ e, scanStep h acc p = acc ++ e := by
  unfold scanStep
  split
  · exact ⟨[(p, mdviewVersion h p)], rfl⟩
  · exact ⟨[], (List.append_nil acc).symm⟩

/-- The common-directory fold only appends to the accumulator. -/
theorem scanFold_app (h : Host) (l : List String) (acc : List (String × String)) :
    ∃ ext, l.foldl (scanStep h) acc = acc ++ ext := by
  induction l generalizing acc with
  | nil => exact ⟨[], by simp⟩
  | cons p ps ih =>
      rcases scanStep_app h acc p with ⟨e, he⟩
      rcases ih (scanStep h acc p) with ⟨ext, hext⟩
      exact ⟨e ++ ext, by rw [List.foldl_cons, hext, he, List.append_assoc]⟩

/-- One scan step preserves distinctness of the recorded path strings: an
entry is appended only when its path is not yet recorded. -/
theorem scanStep_nodup (h : Host) (acc : List (String × String)) (p : String)
    (hacc : (acc.map Prod.fst).Nodup) :
    ((scanStep h acc p).map Prod.fst).Nodup := by
  unfold scanStep
  by_cases hc : (fileExistsB h p && !(acc.any (fun q => q.1 == p))) = true
  · rw [if_pos hc]
    have hany : acc.any (fun q => q.1 == p) = false := by
      have h2 := (Bool.and_eq_true _ _).mp hc |>.2
      rwa [Bool.not_eq_true'] at h2
    have hnotmem : p ∉ acc.map Prod.fst := by
      intro hmem
      rcases List.mem_map.mp hmem with ⟨q, hq, hq1⟩
      have : acc.any (fun r => r.1 == p) = true :=
        List.any_eq_true.mpr ⟨q, hq, by simp [hq1]⟩
      rw [this] at hany
      simp at hany
    rw [List.map_append]
    rw [List.nodup_append]
    refine ⟨hacc, List.nodup_singleton _, ?_⟩
    intro a ha hb
    rcases List.mem_singleton.mp hb with rfl
    simp at ha
    exact hnotmem (by simpa using ha)
  · rw [if_neg hc]
    exact hacc

/-- The common-directory fold keeps the recorded path strings distinct. -/
theorem scanFold_nodup (h : Host) (l : List String) (acc : List (String × String))
    (hacc : (acc.map Prod.fst).Nodup) :
    ((l.foldl (scanStep h) acc).map Prod.fst).Nodup := by
  induction l generalizing acc with
  | nil => exact hacc
  | cons p ps ih => exact ih _ (scanStep_nodup h acc p hacc)

/-- Every existing file among the probed directories ends up recorded by the
common-directory fold (either it was already in the accumulator or the step
appends it). -/
theorem scanFold_mem (h : Host) (l : List String) (acc : List (String × String))
    (p : String) (hp : p ∈ l) (hex : fileExistsB h p = true) :
    p ∈ (l.foldl (scanStep h) acc).map Prod.fst := by
  induction l generalizing acc with
  | nil => cases hp
  | cons q qs ih =>
      rcases List.mem_cons.mp hp with rfl | hp'
      · have h1 : p ∈ (scanStep h acc p).map Prod.fst := by
          unfold scanStep
          by_cases hc : (fileExistsB h p && !(acc.any (fun r => r.1 == p))) = true
          · rw [if_pos hc]
            simp
          · rw [if_neg hc]
            have hany : acc.any (fun r => r.1 == p) = true := by
              by_contra hanyf
              apply hc
              rw [hex]
              simp only [Bool.true_and, Bool.not_eq_true']
              exact Bool.not_eq_true _ ▸ (Bool.eq_false_iff.mpr hanyf)
            rcases List.any_eq_true.mp hany with ⟨r, hr, hr1⟩
            exact List.mem_map.mpr ⟨r, hr, by simpa using hr1⟩
        rw [List.foldl_cons]
        rcases scanFold_app h qs (scanStep h acc p) with ⟨ext, hext⟩
        rw [hext, List.map_append]
        exact List.mem_append_left _ h1
      · rw [List.foldl_cons]
        exact ih (scanStep h acc q) hp'

/-- C3 (counterexample): on `hostDup` the same resolved path
`/home/u/.local/bin/mdview` appears twice in the scan result — once from the
conventional-directory probe and once from the pipx listing, which
`find_existing_mdview` appends without any duplicate check. -/
theorem c3_counterexample :
    ¬ ((find_existing_mdview hostDup).map Prod.fst).Nodup := by decide

/-- C3 (amended): the PATH-lookup and conventional-directory portions of the
scan are deduplicated by literal path string, but the full scan result is that
list with the pipx-discovered entries appended unchecked, so the combined list
can repeat a path. -/
theorem c3_amended (h : Host) :
    ((find_existing_nonpipx h).map Prod.fst).Nodup ∧
    find_existing_mdview h = find_existing_nonpipx h ++ find_pipx_mdview h := by
  constructor
  · unfold find_existing_nonpipx
    apply scanFold_nodup
    cases h.whichMdview <;> simp
  · rfl

/-- C9 (confirmed): whenever the version-probe subprocess fails (raises,
times out, exits non-zero, or yields no stdout), `get_mdview_version` returns
exactly the file-reading fallback, which tries the two embedded-marker forms
and yields the literal `"unknown"` when the read also fails; and the scanner
still records an entry for every existing probed path regardless of these
failures. -/
theorem c9_version_total (probe : ProbeOutcome) (fr : ReadOutcome) (h : Host)
    (p : String) (hprobe : probeFailed probe = true)
    (hmem : p ∈ unixCommonDirs h.home) (hex : fileExistsB h p = true) :
    get_mdview_version probe fr = fileFallbackVersion fr ∧
    fileFallbackVersion ReadOutcome.raised = "unknown" ∧
    ∃ v, (p, v) ∈ find_existing_mdview h := by
  refine ⟨?_, rfl, ?_⟩
  · cases probe with
    | raised => rfl
    | completed rc out err =>
        unfold probeFailed at hprobe
        rw [Bool.not_eq_true'] at hprobe
        simp [get_mdview_version, hprobe]
  · have hm : p ∈ (find_existing_nonpipx h).map Prod.fst := by
      unfold find_existing_nonpipx
      exact scanFold_mem h _ _ p hmem hex
    rcases List.mem_map.mp hm with ⟨⟨p', v⟩, hpv, hfst⟩
    refine ⟨v, ?_⟩
    unfold find_existing_mdview
    apply List.mem_append_left
    simpa [show p' = p from hfst] using hpv

/-- C9 (witness): on `hostTimeout` the probe for `/usr/local/bin/mdview`
raises and the file read raises; the extraction yields `"unknown"` and the
scan still contains an entry for that path. -/
theorem c9_version_total_witness :
    probeFailed ProbeOutcome.raised = true ∧
    "/usr/local/bin/mdview" ∈ unixCommonDirs hostTimeout.home ∧
    fileExistsB hostTimeout "/usr/local/bin/mdview" = true ∧
    (get_mdview_version ProbeOutcome.raised ReadOutcome.raised =
        fileFallbackVersion ReadOutcome.raised ∧
      fileFallbackVersion ReadOutcome.raised = "unknown" ∧
      ∃ v, ("/usr/local/bin/mdview", v) ∈ find_existing_mdview hostTimeout) :=
  ⟨by decide, by decide, by decide,
    c9_version_total ProbeOutcome.raised ReadOutcome.raised hostTimeout
      "/usr/local/bin/mdview" (by decide) (by decide) (by decide)⟩

/-- A confirmed overwrite requires an affirmative line: whenever the
confirmation loop returns true, some consumed line normalises to `y` or
`yes`. -/
theorem confirmOverwriteLoop_yes (inputs : List InputEvent)
    (h : confirmOverwriteLoop inputs = true) :
    ∃ s, InputEvent.line s ∈ inputs ∧
      (pyLower (pyStrip s) = "y" ∨ pyLower (pyStrip s) = "yes") := by
  induction inputs with
  | nil => simp [confirmOverwriteLoop] at h
  | cons e rest ih =>
      cases e with
      | interrupt => simp [confirmOverwriteLoop] at h
      | line s =>
          rw [confirmOverwriteLoop] at h
          split at h
          · next hyes =>
              refine ⟨s, List.mem_cons_self _ _, ?_⟩
              rcases (Bool.or_eq_true _ _).mp hyes with h2 | h2
              · exact Or.inl (by simpa using h2)
              · exact Or.inr (by simpa using h2)
          · split at h
            · simp at h
            · rcases ih h with ⟨s', hs', hy⟩
              exact ⟨s', List.mem_cons_of_mem _ hs', hy⟩

/-- C1 (confirmed): when the selected target directory already holds a
scanned installation of the artifact, the resolver presents the overwrite
prompt; answering `n`, `no` or nothing declines (the resolution returns
false and `main` never reaches the installer write step), and a proceeding
resolution can only arise from a `y`/`yes` answer. -/
theorem c1_overwrite_gate (h : Host) (dir : String) (inputs : List InputEvent)
    (hmem : (dir ++ "/mdview") ∈ (find_existing_mdview h).map Prod.fst) :
    (should_install_to_location (find_existing_mdview h) dir inputs).prompted = true ∧
    (∀ r rest depsOk,
      (pyLower (pyStrip r) = "n" ∨ pyLower (pyStrip r) = "no" ∨
          pyLower (pyStrip r) = "") →
      (should_install_to_location (find_existing_mdview h) dir
          (InputEvent.line r :: rest)).proceed = false ∧
        main_installer_invoked false depsOk h dir (InputEvent.line r :: rest) = false) ∧
    ((should_install_to_location (find_existing_mdview h) dir inputs).proceed = true →
      ∃ s, InputEvent.line s ∈ inputs ∧
        (pyLower (pyStrip s) = "y" ∨ pyLower (pyStrip s) = "yes")) := by
  have hcond : (find_existing_mdview h).any
      (fun pv => pv.1 == dir ++ "/mdview") = true := by
    rcases List.mem_map.mp hmem with ⟨pv, hpv, hfst⟩
    exact List.any_eq_true.mpr ⟨pv, hpv, by simp [hfst]⟩
  have hsil : ∀ ins, should_install_to_location (find_existing_mdview h) dir ins =
      ⟨true, confirmOverwriteLoop ins⟩ := by
    intro ins
    unfold should_install_to_location
    rw [hcond]
    rfl
  refine ⟨by rw [hsil], ?_, ?_⟩
  · intro r rest depsOk hr
    have hno : confirmOverwriteLoop (InputEvent.line r :: rest) = false := by
      rcases hr with h1 | h1 | h1 <;> simp [confirmOverwriteLoop, h1]
    constructor
    · rw [hsil]
      exact hno
    · unfold main_installer_invoked
      rw [hsil]
      simp [hno]
  · intro hp
    rw [hsil] at hp
    exact confirmOverwriteLoop_yes inputs hp

/-- C1 (witness): on `hostAtTarget`, targeting `/usr/local/bin` with the
single response `n`, the conflict gate holds. -/
theorem c1_overwrite_gate_witness :
    ("/usr/local/bin" ++ "/mdview") ∈
      (find_existing_mdview hostAtTarget).map Prod.fst ∧
    ((should_install_to_location (find_existing_mdview hostAtTarget)
        "/usr/local/bin" [InputEvent.line "n"]).prompted = true ∧
      (∀ r rest depsOk,
        (pyLower (pyStrip r) = "n" ∨ pyLower (pyStrip r) = "no" ∨
            pyLower (pyStrip r) = "") →
        (should_install_to_location (find_existing_mdview hostAtTarget)
            "/usr/local/bin" (InputEvent.line r :: rest)).proceed = false ∧
          main_installer_invoked false depsOk hostAtTarget "/usr/local/bin"
            (InputEvent.line r :: rest) = false) ∧
      ((should_install_to_location (find_existing_mdview hostAtTarget)
          "/usr/local/bin" [InputEvent.line "n"]).proceed = true →
        ∃ s, InputEvent.line s ∈ [InputEvent.line "n"] ∧
          (pyLower (pyStrip s) = "y" ∨ pyLower (pyStrip s) = "yes"))) :=
  ⟨by decide,
    c1_overwrite_gate hostAtTarget "/usr/local/bin" [InputEvent.line "n"] (by decide)⟩

/-- C4 (counterexample): an interrupt delivered at the PATH-update prompt is
not treated as cancellation — `update_user_path` proceeds exactly as if the
user had agreed, returning true and appending the export line to the shell
configuration. -/
theorem c4_counterexample :
    (update_user_path envBashrc "/home/u/.local/bin" false
        [InputEvent.interrupt]).1 = true ∧
    (update_user_path envBashrc "/home/u/.local/bin" false
        [InputEvent.interrupt]).2 ≠ envBashrc.configContent := by
  refine ⟨by decide, by decide⟩

/-- C4 (amended): an interrupt during the target-selection prompt or the
overwrite prompt is caught and treated as cancellation, and no prompt crashes
on interrupt; but an interrupt during the PATH-update confirmation is caught
and *defaults to yes*: the update proceeds and the export line is appended. -/
theorem c4_amended :
    (∀ env rest, get_install_location env false none (InputEvent.interrupt :: rest) =
        (LocOutcome.cancelled, 1)) ∧
    (∀ scan dir rest,
      (should_install_to_location scan dir (InputEvent.interrupt :: rest)).prompted
          = false ∨
      (should_install_to_location scan dir (InputEvent.interrupt :: rest)).proceed
          = false) ∧
    (∀ pe dir rest, systemDirs.contains dir = false →
      is_path_in_config pe.configContent dir = false → pe.writeOk = true →
      update_user_path pe dir false (InputEvent.interrupt :: rest) =
        (true, some ((pe.configContent.getD "") ++ pathLine dir))) := by
  refine ⟨fun env rest => rfl, ?_, ?_⟩
  · intro scan dir rest
    unfold should_install_to_location
    by_cases hc : scan.any (fun pv => pv.1 == dir ++ "/mdview") = true
    · rw [if_pos hc]
      exact Or.inr rfl
    · rw [if_neg hc]
      exact Or.inl rfl
  · intro pe dir rest h1 h2 h3
    unfold update_user_path
    rw [h1, h2]
    simp [add_to_path, h3]

/-- C4 (witness): the amended statement's PATH-prompt clause evaluated on the
concrete `.bashrc` environment with an interrupt as the only input. -/
theorem c4_amended_witness :
    systemDirs.contains "/home/u/.local/bin" = false ∧
    is_path_in_config envBashrc.configContent "/home/u/.local/bin" = false ∧
    envBashrc.writeOk = true ∧
    update_user_path envBashrc "/home/u/.local/bin" false [InputEvent.interrupt] =
      (true, some ((envBashrc.configContent.getD "") ++
        pathLine "/home/u/.local/bin")) :=
  ⟨by decide, by decide, by decide,
    c4_amended.2.2 envBashrc "/home/u/.local/bin" [] (by decide) (by decide) rfl⟩

/-- C5 (counterexample): a non-permission failure midway through the write
(after 3 characters of `NEWCONTENT` reached the file) leaves the destination
holding `NEW` — neither the full new artifact content nor the prior content
`old content` — while the call reports failure.  The destination is not left
as it was, because `open(.., "w")` truncates before writing. -/
theorem c5_counterexample :
    (install_mdview ⟨some "old content", true⟩ "NEWCONTENT"
        (WriteOutcome.writeFailsAfter 3)).returned = false ∧
    (install_mdview ⟨some "old content", true⟩ "NEWCONTENT"
        (WriteOutcome.writeFailsAfter 3)).file.content = some "NEW" ∧
    ¬ ((install_mdview ⟨some "old content", true⟩ "NEWCONTENT"
          (WriteOutcome.writeFailsAfter 3)).file.content = some "NEWCONTENT" ∨
       (install_mdview ⟨some "old content", true⟩ "NEWCONTENT"
          (WriteOutcome.writeFailsAfter 3)).file.content = some "old content") := by
  refine ⟨rfl, by decide, by decide⟩

/-- C5 (amended): success is reported only after the full content is written
and the permission bit set; a permission error (at open or at chmod) is
reported with a message distinct from other I/O failures, though both return
`False`; and on failure the destination holds either its prior content or a
(possibly empty, possibly complete) prefix of the new content — it is not
guaranteed to be left exactly as it was. -/
theorem c5_amended (dest : TargetFile) (content : String) (w : WriteOutcome) :
    ((install_mdview dest content w).returned = true ↔
      w = WriteOutcome.ok ∧
        (install_mdview dest content w).file = ⟨some content, true⟩) ∧
    ((install_mdview dest content w).msg = InstallMsg.permissionDenied ↔
      w = WriteOutcome.openPerm ∨ w = WriteOutcome.chmodPerm) ∧
    ((install_mdview dest content w).file.content = dest.content ∨
     (install_mdview dest content w).file.content = some content ∨
     ∃ k, (install_mdview dest content w).file.content = some (strTake content k) ∧
       (install_mdview dest content w).returned = false) := by
  cases w with
  | ok =>
      exact ⟨by simp [install_mdview], by simp [install_mdview],
        Or.inr (Or.inl rfl)⟩
  | openPerm =>
      exact ⟨by simp [install_mdview], by simp [install_mdview], Or.inl rfl⟩
  | writeFailsAfter k =>
      exact ⟨by simp [install_mdview], by simp [install_mdview],
        Or.inr (Or.inr ⟨k, rfl, rfl⟩)⟩
  | chmodPerm =>
      exact ⟨by simp [install_mdview], by simp [install_mdview],
        Or.inr (Or.inl rfl)⟩

/-- C6 (confirmed): with the force flag the conflict-resolution step of
`main` performs zero scanner calls, presents no conflict prompt, and yields a
proceed decision, for every host state, target and input stream. -/
theorem c6_force_skips_scan (h : Host) (dir : String) (inputs : List InputEvent) :
    (resolve_conflict true h dir inputs).1 = 0 ∧
    (resolve_conflict true h dir inputs).2.prompted = false ∧
    (resolve_conflict true h dir inputs).2.proceed = true :=
  ⟨rfl, rfl, rfl⟩

/-- C7 (confirmed): in auto mode with no path override the resolver consumes
no prompt and targets `~/.local/bin`, attempting to create it (the elevated
flag is set exactly when `mkdir` fails); this target is the first,
non-elevated entry of the interactive candidate menu and a member of the
user-directory preference list. -/
theorem c7_auto_target (env : LocEnv) (inputs : List InputEvent) :
    get_install_location env true none inputs =
      (LocOutcome.chosen (env.home ++ "/.local/bin")
        (!(env.mkdirOk.contains (env.home ++ "/.local/bin"))), 0) ∧
    (interactiveOptions env).headD ("", true) = (env.home ++ "/.local/bin", false) ∧
    (env.home ++ "/.local/bin") ∈ unixUserCandidates env.home env.cwd := by
  refine ⟨?_, rfl, ?_⟩
  · unfold get_install_location
    cases hc : env.mkdirOk.contains (env.home ++ "/.local/bin") <;> simp
  · unfold unixUserCandidates
    exact List.mem_cons_of_mem _ (List.mem_cons_self _ _)

/-- C8 (confirmed): for every install directory among the known system
directories, `update_user_path` returns true immediately and the shell
configuration content is left untouched. -/
theorem c8_system_dir_shortcircuit (env : PathEnv) (autoMode : Bool)
    (inputs : List InputEvent) (dir : String)
    (hdir : systemDirs.contains dir = true) :
    update_user_path env dir autoMode inputs = (true, env.configContent) := by
  unfold update_user_path
  rw [hdir]
  simp

/-- C8 (witness): the short-circuit evaluated at `/usr/local/bin` on a
concrete environment. -/
theorem c8_system_dir_shortcircuit_witness :
    systemDirs.contains "/usr/local/bin" = true ∧
    update_user_path envBashrcC8 "/usr/local/bin" false [] =
      (true, envBashrcC8.configContent) :=
  ⟨by decide,
    c8_system_dir_shortcircuit envBashrcC8 false [] "/usr/local/bin" (by decide)⟩

/-- A formatted hexadecimal digit is a lowercase hex digit with the value it
was formatted from. -/
theorem hexDigit_spec : ∀ m, m < 16 →
    (isHexDigitB (hexDigitChar m) = true ∧ hexCharVal (hexDigitChar m) = m) := by
  decide

set_option maxHeartbeats 1600000 in
/-- Decoding one escaped (or literal) character chunk produced by
`reprEscChar` recovers exactly that character, spends one unit of fuel, and
continues on the rest. -/
theorem decodeBodyF_chunk (isPrint : Char → Bool) (q c : Char) (f : Nat)
    (rest : List Char) (hq : q = quoteS ∨ q = quoteD) :
    decodeBodyF q (f + 1) (reprEscChar isPrint q c ++ rest) =
      (decodeBodyF q f rest).map (fun l => c :: l) := by
  unfold reprEscChar
  split_ifs with h1 h2 h3 h4 h5 h6 h7 h8 h9
  · rcases (Bool.or_eq_true _ _).mp h1 with hcq | hcb
    · have hc : c = q := by simpa using hcq
      subst hc
      rcases hq with rfl | rfl <;> simp [decodeBodyF, decodeEsc, quoteS, quoteD]
    · have hc : c = '\\' := by simpa using hcb
      subst hc
      rcases hq with rfl | rfl <;> simp [decodeBodyF, decodeEsc, quoteS, quoteD]
  · have hc : c = '\t' := by simpa using h2
    subst hc
    rcases hq with rfl | rfl <;> simp [decodeBodyF, decodeEsc, quoteS, quoteD]
  · have hc : c = '\n' := by simpa using h3
    subst hc
    rcases hq with rfl | rfl <;> simp [decodeBodyF, decodeEsc, quoteS, quoteD]
  · have hc : c = '\x0d' := by simpa using h4
    subst hc
    rcases hq with rfl | rfl <;> simp [decodeBodyF, decodeEsc, quoteS, quoteD]
  · have hn : c.toNat < 256 := by
      rcases (Bool.or_eq_true _ _).mp h5 with h | h
      · have := of_decide_eq_true h
        omega
      · have h127 : c.toNat = 127 := by simpa using h
        omega
    have hd1 := hexDigit_spec (c.toNat / 16 % 16) (Nat.mod_lt _ (by norm_num))
    have hd2 := hexDigit_spec (c.toNat % 16) (Nat.mod_lt _ (by norm_num))
    have hval : 16 * (c.toNat / 16 % 16) + c.toNat % 16 = c.toNat := by omega
    rcases hq with rfl | rfl <;>
      simp [decodeBodyF, decodeEsc, hex2, quoteS, quoteD, hd1.1, hd1.2, hd2.1,
        hd2.2, hval, Char.ofNat_toNat]
  · simp only [Bool.or_eq_true, beq_iff_eq, not_or] at h1
    simp [decodeBodyF, h1.1, h1.2]
  · simp only [Bool.or_eq_true, beq_iff_eq, not_or] at h1
    simp [decodeBodyF, h1.1, h1.2]
  · have hn : c.toNat < 256 := of_decide_eq_true h8
    have hd1 := hexDigit_spec (c.toNat / 16 % 16) (Nat.mod_lt _ (by norm_num))
    have hd2 := hexDigit_spec (c.toNat % 16) (Nat.mod_lt _ (by norm_num))
    have hval : 16 * (c.toNat / 16 % 16) + c.toNat % 16 = c.toNat := by omega
    rcases hq with rfl | rfl <;>
      simp [decodeBodyF, decodeEsc, hex2, quoteS, quoteD, hd1.1, hd1.2, hd2.1,
        hd2.2, hval, Char.ofNat_toNat]
  · have hn : c.toNat < 65536 := of_decide_eq_true h9
    have hd1 := hexDigit_spec (c.toNat / 4096 % 16) (Nat.mod_lt _ (by norm_num))
    have hd2 := hexDigit_spec (c.toNat / 256 % 16) (Nat.mod_lt _ (by norm_num))
    have hd3 := hexDigit_spec (c.toNat / 16 % 16) (Nat.mod_lt _ (by norm_num))
    have hd4 := hexDigit_spec (c.toNat % 16) (Nat.mod_lt _ (by norm_num))
    have hval : 4096 * (c.toNat / 4096 % 16) + 256 * (c.toNat / 256 % 16) +
        16 * (c.toNat / 16 % 16) + c.toNat % 16 = c.toNat := by omega
    rcases hq with rfl | rfl <;>
      simp [decodeBodyF, decodeEsc, hex4, hex2, quoteS, quoteD, hd1.1, hd1.2,
        hd2.1, hd2.2, hd3.1, hd3.2, hd4.1, hd4.2, hval, Char.ofNat_toNat]
  · have hn : c.toNat < 4294967296 := by
      have hv := c.valid
      simp only [UInt32.isValidChar, Nat.isValidChar] at hv
      have he : c.toNat = c.val.toNat := rfl
      omega
    have hd1 := hexDigit_spec (c.toNat / 268435456 % 16) (Nat.mod_lt _ (by norm_num))
    have hd2 := hexDigit_spec (c.toNat / 16777216 % 16) (Nat.mod_lt _ (by norm_num))
    have hd3 := hexDigit_spec (c.toNat / 1048576 % 16) (Nat.mod_lt _ (by norm_num))
    have hd4 := hexDigit_spec (c.toNat / 65536 % 16) (Nat.mod_lt _ (by norm_num))
    have hd5 := hexDigit_spec (c.toNat / 4096 % 16) (Nat.mod_lt _ (by norm_num))
    have hd6 := hexDigit_spec (c.toNat / 256 % 16) (Nat.mod_lt _ (by norm_num))
    have hd7 := hexDigit_spec (c.toNat / 16 % 16) (Nat.mod_lt _ (by norm_num))
    have hd8 := hexDigit_spec (c.toNat % 16) (Nat.mod_lt _ (by norm_num))
    have hval : 268435456 * (c.toNat / 268435456 % 16) +
        16777216 * (c.toNat / 16777216 % 16) + 1048576 * (c.toNat / 1048576 % 16) +
        65536 * (c.toNat / 65536 % 16) + 4096 * (c.toNat / 4096 % 16) +
        256 * (c.toNat / 256 % 16) + 16 * (c.toNat / 16 % 16) + c.toNat % 16 =
        c.toNat := by omega
    rcases hq with rfl | rfl <;>
      simp [decodeBodyF, decodeEsc, hex8, hex4, hex2, quoteS, quoteD, hd1.1,
        hd1.2, hd2.1, hd2.2, hd3.1, hd3.2, hd4.1, hd4.2, hd5.1, hd5.2, hd6.1,
        hd6.2, hd7.1, hd7.2, hd8.1, hd8.2, hval, Char.ofNat_toNat]

/-- Every escape chunk is nonempty. -/
theorem reprEscChar_length_pos (isPrint : Char → Bool) (q c : Char) :
    1 ≤ (reprEscChar isPrint q c).length := by
  unfold reprEscChar
  split_ifs <;> simp [hex2, hex4, hex8]

/-- The escaped body is at least as long as the original list, so the input
length is always sufficient fuel. -/
theorem reprBody_length_ge (isPrint : Char → Bool) (q : Char) (l : List Char) :
    l.length ≤ (reprBody isPrint q l).length := by
  induction l with
  | nil => simp [reprBody]
  | cons c cs ih =>
      have hstep : reprBody isPrint q (c :: cs) =
          reprEscChar isPrint q c ++ reprBody isPrint q cs := rfl
      rw [hstep, List.length_append, List.length_cons]
      have h1 := reprEscChar_length_pos isPrint q c
      omega

/-- With sufficient fuel, decoding the full escaped body followed by the
closing quote recovers the original character list. -/
theorem decodeBodyF_reprBody (isPrint : Char → Bool) (q : Char) (l : List Char)
    (hq : q = quoteS ∨ q = quoteD) :
    ∀ f, l.length + 1 ≤ f →
      decodeBodyF q f (reprBody isPrint q l ++ [q]) = some l := by
  induction l with
  | nil =>
      intro f hf
      cases f with
      | zero => omega
      | succ f => simp [reprBody, decodeBodyF]
  | cons c cs ih =>
      intro f hf
      cases f with
      | zero => simp at hf
      | succ f =>
          have hf' : cs.length + 1 ≤ f := by
            simp [List.length_cons] at hf
            omega
          have hstep : reprBody isPrint q (c :: cs) ++ [q] =
              reprEscChar isPrint q c ++ (reprBody isPrint q cs ++ [q]) := by
            show (reprEscChar isPrint q c ++ reprBody isPrint q cs) ++ [q] = _
            rw [List.append_assoc]
          rw [hstep, decodeBodyF_chunk isPrint q c f _ hq, ih f hf']
          rfl

/-- Decoding the full escaped body followed by the closing quote recovers
the original character list. -/
theorem decodeBody_reprBody (isPrint : Char → Bool) (q : Char) (l : List Char)
    (hq : q = quoteS ∨ q = quoteD) :
    decodeBody q (reprBody isPrint q l ++ [q]) = some l := by
  unfold decodeBody
  apply decodeBodyF_reprBody isPrint q l hq
  have h1 := reprBody_length_ge isPrint q l
  have h2 : (reprBody isPrint q l ++ [q]).length =
      (reprBody isPrint q l).length + 1 := by simp
  omega

/-- Evaluating the literal produced by the modelled `repr` recovers the
original string, for every printability classification. -/
theorem pyEval_pyReprWith (isPrint : Char → Bool) (s : String) :
    pyEvalLiteral (pyReprWith isPrint s) = some s := by
  have hq : pyQuoteChar s = quoteS ∨ pyQuoteChar s = quoteD := by
    unfold pyQuoteChar
    split
    · exact Or.inr rfl
    · exact Or.inl rfl
  have hcond : (pyQuoteChar s == quoteS || pyQuoteChar s == quoteD) = true := by
    rcases hq with h | h <;> rw [h] <;> decide
  show (if pyQuoteChar s == quoteS || pyQuoteChar s == quoteD then
      (decodeBody (pyQuoteChar s)
        (reprBody isPrint (pyQuoteChar s) s.data ++ [pyQuoteChar s])).map String.mk
    else none) = some s
  rw [if_pos hcond, decodeBody_reprBody isPrint _ _ hq]
  rfl

/-- Sanity check: a string mixing both quote kinds, a backslash, a newline
and a tab survives the repr/eval round trip, by evaluation. -/
theorem pyRepr_eval_example :
    pyEvalLiteral (pyRepr (String.mk ['a', quoteS, '\n', '\\', quoteD, '\t', 'b'])) =
      some (String.mk ['a', quoteS, '\n', '\\', quoteD, '\t', 'b']) := by decide

/-- C10 (confirmed): for every mdview.py source text, the installer built by
embedding the text via `repr` defines a `create_mdview_script()` whose
returned string equals the original text character for character. -/
theorem c10_build_roundtrip (content : String) :
    create_mdview_script_value (build_mdview_function content) = some content := by
  unfold create_mdview_script_value build_mdview_function
  have hdata : (scriptFnHeader ++ pyRepr content).data =
      scriptFnHeader.data ++ (pyRepr content).data := rfl
  rw [hdata, List.drop_left]
  exact pyEval_pyReprWith pyPrintableDefault content

end MdviewInstaller
